import Mathlib

/-!
Shallow embedding of the matching engine of `spotify_playlist.py`
(Spotify Playlist Creator): the fuzzy scorer `score_track_match`, the
selector `_find_best_match`, the two-pass retriever `search_track` /
`_execute_search`, the batch playlist population
`_add_tracks_in_batches` / `create_playlist`, and the orchestrator loop
of `main`.

Text is modelled as `List Char`; scores (Python floats) as rationals.
The string-similarity ratio of `difflib.SequenceMatcher` is embedded as
the plain Ratcliff/Obershelp longest-matching-blocks ratio (no junk
heuristic, which never triggers on the short strings involved here).
-/

abbrev Str := List Char

/-- Python's `str.lower()` restricted to the alphabets used here. -/
def low (s : Str) : Str := s.map Char.toLower

/-- Python's `needle in haystack` substring test. -/
def containsSub (hay needle : Str) : Bool :=
  needle.isPrefixOf hay ||
    match hay with
    | [] => false
    | _ :: t => containsSub t needle

/-- `KARAOKE_KEYWORDS` from `spotify_playlist.py`. -/
def KARAOKE_KEYWORDS : List Str :=
  [ "karaoke".toList, "instrumental".toList, "backing track".toList,
    "cover".toList, "tribute".toList, "in the style of".toList,
    "made famous by".toList, "originally performed".toList,
    "sing along".toList, "minus one".toList ]

/-! ### SequenceMatcher: Ratcliff/Obershelp ratio -/

/-- Length of the longest common prefix of two character lists: the size of
the matching block anchored at a given pair of positions. -/
def extendMatch : Str → Str → Nat
  | x :: xs, y :: ys => if x = y then extendMatch xs ys + 1 else 0
  | _, _ => 0

/-- All index pairs `(i, j)` with `i < la`, `j < lb`, in the iteration
order of `SequenceMatcher.find_longest_match` (i ascending, j ascending). -/
def idxPairs (la lb : Nat) : List (Nat × Nat) :=
  (List.range la).flatMap fun i => (List.range lb).map fun j => (i, j)

/-- One step of the `find_longest_match` scan: replace the running best
`(i, j, k)` when the block anchored at `p` is strictly longer. -/
def flmStep (a b : Str) (best : Nat × Nat × Nat) (p : Nat × Nat) : Nat × Nat × Nat :=
  let k := extendMatch (a.drop p.1) (b.drop p.2)
  if best.2.2 < k then (p.1, p.2, k) else best

/-- `SequenceMatcher.find_longest_match` over whole lists (no junk):
returns `(i, j, k)` with `a.drop i` and `b.drop j` agreeing on `k`
characters, `k` maximal, ties broken by smallest `i` then smallest `j`. -/
def flm (a b : Str) : Nat × Nat × Nat :=
  (idxPairs a.length b.length).foldl (flmStep a b) (0, 0, 0)

/-- Total number of matched characters over all matching blocks
(`SequenceMatcher.get_matching_blocks`), with explicit fuel; the fuel
`a.length + b.length` of `matchTotal` below always suffices because each
recursive call strictly shrinks `a`. -/
def matchTotalF : Nat → Str → Str → Nat
  | 0, _, _ => 0
  | fuel + 1, a, b =>
    let r := flm a b
    if r.2.2 = 0 then 0
    else
      matchTotalF fuel (a.take r.1) (b.take r.2.1) + r.2.2 +
        matchTotalF fuel (a.drop (r.1 + r.2.2)) (b.drop (r.2.1 + r.2.2))

def matchTotal (a b : Str) : Nat :=
  matchTotalF (a.length + b.length + 1) a b

/-- The value of SequenceMatcher ratio(): `2 * M / (len a + len b)`, and `1` when both
inputs are empty (as `difflib._calculate_ratio` does). -/
def similarity (a b : Str) : ℚ :=
  if a.length + b.length = 0 then 1
  else 2 * (matchTotal a b : ℚ) / (a.length + b.length)

/-! ### Data model -/

/-- `CandidateTrack` projected from a raw Spotify search result
(`track["id"]`, `track["name"]`, first artist name, album name,
popularity), with the code's defaults already applied. -/
structure CandidateTrack where
  id : Str
  name : Str
  artist_name : Str
  album_name : Str
  popularity : Nat
deriving DecidableEq, Repr

/-- The per-query outcome of `_find_best_match` / `search_track`:
`(track_id, score, matched_title, matched_artist)`. -/
structure MatchResult where
  track_id : Option Str
  score : ℚ
  matched_title : Option Str
  matched_artist : Option Str
deriving DecidableEq, Repr

/-- `(None, 0, None, None)`. -/
def emptyMatch : MatchResult := ⟨none, 0, none, none⟩

/-! ### Scorer: `score_track_match` -/

/-- The karaoke check of `score_track_match`: the lower-cased
`f"{track_name} {artist_name} {album_name}"` contains some keyword. -/
def hasKaraoke (c : CandidateTrack) : Bool :=
  let combined := low (c.name ++ [' '] ++ c.artist_name ++ [' '] ++ c.album_name)
  KARAOKE_KEYWORDS.any fun k => containsSub combined k

/-- The score of `score_track_match` before the karaoke penalty:
artist similarity (0-40) + title similarity (0-30) + popularity / 10. -/
def baseScore (c : CandidateTrack) (expected_title expected_artist : Str) : ℚ :=
  similarity (low expected_artist) (low c.artist_name) * 40 +
    similarity (low expected_title) (low c.name) * 30 +
    (c.popularity : ℚ) / 10

/-- `score_track_match(track, expected_title, expected_artist)`:
returns `(score, track_name, artist_name)`. -/
def score_track_match (c : CandidateTrack) (expected_title expected_artist : Str) :
    ℚ × Str × Str :=
  (if hasKaraoke c then baseScore c expected_title expected_artist - 50
   else baseScore c expected_title expected_artist,
   c.name, c.artist_name)

/-- The score component of `score_track_match`. -/
def sc (c : CandidateTrack) (t a : Str) : ℚ := (score_track_match c t a).1

/-! ### MatchSelector: `_find_best_match` -/

/-- The loop of `_find_best_match`: running `best_score` (initialized to 0)
and running `best_match` tuple, updated when a score is strictly greater. -/
def findBestAux (t a : Str) (best_score : ℚ)
    (best : Option (Str × ℚ × Str × Str)) : List CandidateTrack →
      Option (Str × ℚ × Str × Str)
  | [] => best
  | c :: cs =>
    let r := score_track_match c t a
    if best_score < r.1 then findBestAux t a r.1 (some (c.id, r.1, r.2.1, r.2.2)) cs
    else findBestAux t a best_score best cs

/-- `_find_best_match(candidates, title, artist)`: returns
`best_match if best_match else (None, 0, None, None)`. -/
def find_best_match (candidates : List CandidateTrack) (title artist : Str) :
    MatchResult :=
  match findBestAux title artist 0 none candidates with
  | some (i, s, n, an) => ⟨some i, s, some n, some an⟩
  | none => emptyMatch

/-- Modelled from the spec's words ("ties keep the earliest-seen maximal
candidate"): the earliest candidate attaining the maximal score. -/
def argmaxFirst (t a : Str) : List CandidateTrack → Option CandidateTrack
  | [] => none
  | c :: cs =>
    match argmaxFirst t a cs with
    | none => some c
    | some d => if sc c t a < sc d t a then some d else some c

/-- Modelled from the spec's words (§4.3 MatchSelector): select the earliest
maximal candidate if its score is strictly positive, else the empty result. -/
def selectSpec (cs : List CandidateTrack) (t a : Str) : MatchResult :=
  match argmaxFirst t a cs with
  | none => emptyMatch
  | some c =>
    if 0 < sc c t a then ⟨some c.id, sc c t a, some c.name, some c.artist_name⟩
    else emptyMatch

/-! ### CandidateRetriever: `_execute_search` / `search_track` -/

/-- A `spotipy.SpotifyException`: numeric http status and message. -/
structure SpotErr where
  http_status : Int
  msg : Str
deriving DecidableEq, Repr

/-- An exception raised by a session call: either a `SpotifyException` or
any other exception (carrying only a message). -/
inductive ApiErr where
  | spot (e : SpotErr)
  | other (msg : Str)
deriving DecidableEq, Repr

/-- The search capability `sp.search(q=query, type="track", limit=n)`,
already projected to `results["tracks"]["items"]`: query string and limit
in, candidate list or exception out. -/
def SearchFun : Type := Str → Nat → Except ApiErr (List CandidateTrack)

/-- `_execute_search(sp, query, title)`: runs the search with `limit=10`
and returns `[]` on any exception (`SpotifyException` or other). -/
def execute_search (sp : SearchFun) (q : Str) : List CandidateTrack :=
  match sp q 10 with
  | .ok l => l
  | .error _ => []

/-- The first, field-scoped query of `search_track`:
`f'track:{title} artist:{artist}'`. -/
def fieldQuery (title artist : Str) : Str :=
  "track:".toList ++ title ++ " artist:".toList ++ artist

/-- The second, free-text query of `search_track`: `f'{title} {artist}'`. -/
def freeQuery (title artist : Str) : Str := title ++ [' '] ++ artist

/-- The two queries of `search_track`, in issue order. -/
def queriesFor (title artist : Str) : List Str :=
  [fieldQuery title artist, freeQuery title artist]

/-- One step of the candidate-accumulation loop of `search_track`: append
the track and record its id unless the id was already seen. -/
def dedupStep (acc : List CandidateTrack × List Str) (c : CandidateTrack) :
    List CandidateTrack × List Str :=
  if c.id ∈ acc.2 then acc else (acc.1 ++ [c], acc.2 ++ [c.id])

/-- The candidate list built by `search_track`: both queries executed in
order, results concatenated, deduplicated by id via the `seen_ids` set. -/
def collectCandidates (sp : SearchFun) (title artist : Str) : List CandidateTrack :=
  (((queriesFor title artist).flatMap (execute_search sp)).foldl dedupStep ([], [])).1

/-- `search_track(sp, title, artist)`: two-pass retrieval, then selection. -/
def search_track (sp : SearchFun) (title artist : Str) : MatchResult :=
  let cs := collectCandidates sp title artist
  if cs.isEmpty then emptyMatch else find_best_match cs title artist

/-- Modelled from the spec's words ("Deduplication by candidate identifier
across both queries preserves the first occurrence"): keep the first
occurrence of each id. -/
def dedupFirst : List CandidateTrack → List CandidateTrack
  | [] => []
  | c :: cs => c :: dedupFirst (cs.filter fun d => d.id ≠ c.id)
termination_by l => l.length
decreasing_by
  simp only [List.length_cons]
  exact Nat.lt_succ_of_le (List.length_filter_le _ _)

/-- Dedup-keeping-first with an initial set of already-seen ids. -/
def dedupSeen : List Str → List CandidateTrack → List CandidateTrack
  | _, [] => []
  | seen, c :: cs =>
    if c.id ∈ seen then dedupSeen seen cs
    else c :: dedupSeen (seen ++ [c.id]) cs

/-! ### PlaylistAssembler: `_add_tracks_in_batches` / `create_playlist` -/

/-- `track_ids[i:i+n]` slices for `i = 0, n, 2n, ...` --- the batches of the
loop `for i in range(0, len(track_ids), batch_size)`. -/
def chunksOf {α : Type} (n : Nat) (l : List α) : List (List α) :=
  if h : l.isEmpty ∨ n = 0 then []
  else l.take n :: chunksOf n (l.drop n)
termination_by l.length
decreasing_by
  rw [not_or, List.isEmpty_iff] at h
  have : l.length ≠ 0 := fun h0 => h.1 (List.eq_nil_of_length_eq_zero h0)
  simp only [List.length_drop]
  omega

/-- Result of the batch-adding loop: the count the function returns, the
batches it actually submitted, and the message of a non-`SpotifyException`
error if one escaped the loop (the loop catches only `SpotifyException`). -/
structure AddOutcome where
  tracks_added : Nat
  attempted : List (List Str)
  propagated : Option Str
deriving DecidableEq, Repr

/-- The loop body of `_add_tracks_in_batches`: submit each batch in order;
on success add its size to the count; on `SpotifyException` stop issuing
batches; on any other exception the exception escapes. -/
def addLoop (add : List Str → Except ApiErr Unit) : List (List Str) → AddOutcome
  | [] => ⟨0, [], none⟩
  | b :: bs =>
    match add b with
    | .ok _ =>
      let r := addLoop add bs
      ⟨b.length + r.tracks_added, b :: r.attempted, r.propagated⟩
    | .error (.spot _) => ⟨0, [b], none⟩
    | .error (.other m) => ⟨0, [b], some m⟩

/-- `_add_tracks_in_batches(sp, playlist_id, track_ids)` with
`batch_size = 100`, with the submitted-batch trace made explicit. -/
def add_tracks_in_batches (add : List Str → Except ApiErr Unit)
    (track_ids : List Str) : AddOutcome :=
  addLoop add (chunksOf 100 track_ids)

/-- The playlist record returned by `sp.user_playlist_create`, projected to
`playlist["id"]` and `playlist["external_urls"]["spotify"]`. -/
structure Playlist where
  id : Str
  url : Str
deriving DecidableEq, Repr

/-- The authenticated session capabilities used by `create_playlist`. -/
structure Session where
  current_user : Except ApiErr Str
  user_playlist_create : Str → Str → Bool → Str → Except ApiErr Playlist
  playlist_add_items : Str → List Str → Except ApiErr Unit

/-- `create_playlist(sp, track_ids, name, public, description)`: returns the
playlist URL, or `None` when any exception escapes to its handlers ---
including a non-`SpotifyException` raised inside the batch loop. -/
def create_playlist (sp : Session) (track_ids : List Str) (name : Str)
    (pub : Bool) (desc : Str) : Option Str :=
  match sp.current_user with
  | .error _ => none
  | .ok uid =>
    match sp.user_playlist_create uid name pub desc with
    | .error _ => none
    | .ok pl =>
      match (add_tracks_in_batches (sp.playlist_add_items pl.id) track_ids).propagated with
      | some _ => none
      | none => some pl.url

/-! ### Orchestrator: the search loop of `main` -/

/-- Python truthiness of the returned `track_id` (`if track_id:`): `None`
and the empty string are falsy. -/
def truthyId : Option Str → Bool
  | some i => !i.isEmpty
  | none => false

/-- One iteration of the search loop of `main`: append the id to the
found-list when truthy, else append the original query to the not-found
list. -/
def mainStep (sp : SearchFun) (acc : List Str × List (Str × Str)) (q : Str × Str) :
    List Str × List (Str × Str) :=
  let r := search_track sp q.1 q.2
  if truthyId r.track_id then (acc.1 ++ [r.track_id.getD []], acc.2)
  else (acc.1, acc.2 ++ [q])

/-- The search loop of `main`: fold over the parsed (title, artist) pairs,
accumulating `found_ids` and `not_found`. -/
def processTracks (sp : SearchFun) (tracks : List (Str × Str)) :
    List Str × List (Str × Str) :=
  tracks.foldl (mainStep sp) ([], [])

/-- Whether `main` treats the query as found (the selected id is truthy). -/
def succQ (sp : SearchFun) (q : Str × Str) : Bool :=
  truthyId (search_track sp q.1 q.2).track_id

/-- The id `main` appends for a found query. -/
def idOfQ (sp : SearchFun) (q : Str × Str) : Str :=
  (search_track sp q.1 q.2).track_id.getD []

/-! ### Levenshtein edit distance (for the dissimilarity claim) -/

/-- Standard Levenshtein edit distance, with explicit fuel so that the
kernel can evaluate it; `a.length + b.length` steps always suffice since
every recursive call strictly shrinks the total length. -/
def editDistF : Nat → Str → Str → Nat
  | 0, xs, ys => xs.length + ys.length
  | _ + 1, [], ys => ys.length
  | _ + 1, xs, [] => xs.length
  | fuel + 1, x :: xs, y :: ys =>
    if x = y then editDistF fuel xs ys
    else 1 + min (editDistF fuel xs ys)
      (min (editDistF fuel (x :: xs) ys) (editDistF fuel xs (y :: ys)))

/-- Standard Levenshtein edit distance between two character lists. -/
def editDist (a b : Str) : Nat := editDistF (a.length + b.length) a b

/-! ### Concrete inputs used by witnesses and counterexamples -/

/-- A karaoke-flagged candidate with no textual overlap with the query. -/
def wKar : CandidateTrack := ⟨"k1".toList, "x".toList, "karaoke".toList, [], 0⟩

def wTitle : Str := "y".toList

def wArtist : Str := "zz".toList

/-- A candidate matching title/artist exactly but with a karaoke album. -/
def cEx : CandidateTrack :=
  ⟨"i1".toList, "test".toList, "x".toList, "karaoke".toList, 100⟩

def tEx : Str := "test".toList

def aEx : Str := "x".toList

/-- Exact-match candidate with popularity 100 and no karaoke marker. -/
def c3a : CandidateTrack :=
  ⟨"w1".toList, "Song".toList, "Band".toList, "Album".toList, 100⟩

/-- Exact-match candidate with popularity 0 and no karaoke marker. -/
def c3b : CandidateTrack :=
  ⟨"w2".toList, "Song".toList, "Band".toList, "Album".toList, 0⟩

def t3 : Str := "song".toList

def a3 : Str := "band".toList

/-- Candidate with artist at Levenshtein distance 2 from the expected
artist `"ab"`. -/
def c8a : CandidateTrack := ⟨"d1".toList, "t".toList, "ba".toList, [], 0⟩

/-- Candidate with artist at Levenshtein distance 3 from the expected
artist `"ab"`, yet a higher similarity ratio than `c8a`. -/
def c8b : CandidateTrack := ⟨"d2".toList, "t".toList, "abxyz".toList, [], 0⟩

def t8 : Str := "t".toList

def a8 : Str := "ab".toList

/-- 250 distinct track ids (decimal digit strings). -/
def ids250 : List Str := (List.range 250).map fun n => Nat.toDigits 10 n

/-- Batch-add capability failing with a `SpotifyException` exactly on the
batch whose first id is "100" (the second batch of `ids250`). -/
def add6 : List Str → Except ApiErr Unit := fun b =>
  if b.head? = some (Nat.toDigits 10 100) then .error (.spot ⟨500, "x".toList⟩)
  else .ok ()

def pl6 : Playlist := ⟨"pid".toList, "purl".toList⟩

/-- Session whose creation succeeds and whose batch-add is `add6`. -/
def s6 : Session := ⟨.ok "u".toList, fun _ _ _ _ => .ok pl6, fun _ b => add6 b⟩

/-- Session whose `current_user` call raises a `SpotifyException`. -/
def s7 : Session :=
  ⟨.error (.spot ⟨401, "bad".toList⟩), fun _ _ _ _ => .ok pl6, fun _ _ => .ok ()⟩

def ids10 : List Str := ["aa".toList, "bb".toList]

/-- Batch-add capability raising a non-`SpotifyException` error. -/
def addOther : List Str → Except ApiErr Unit := fun _ => .error (.other "boom".toList)

/-- Session whose creation succeeds but whose batch-add raises a
non-`SpotifyException` error. -/
def s10 : Session := ⟨.ok "u".toList, fun _ _ _ _ => .ok pl6, fun _ b => addOther b⟩

def qT : Str := "t".toList

def qA : Str := "a".toList

/-- Candidate returned by the free-text query in the C5 witness. -/
def cW5 : CandidateTrack := ⟨"z9".toList, "t".toList, "a".toList, [], 50⟩

/-- Search oracle whose field-scoped query raises a `SpotifyException` and
whose free-text query succeeds. -/
def sp5 : SearchFun := fun q _ =>
  if q = fieldQuery qT qA then .error (.spot ⟨500, "boom".toList⟩) else .ok [cW5]

/-- A perfectly matching candidate whose id is the empty string. -/
def cE : CandidateTrack := ⟨[], "t".toList, "a".toList, [], 100⟩

/-- Search oracle returning only the empty-id candidate. -/
def spE : SearchFun := fun _ _ => .ok [cE]

/-- Search oracle returning no candidates at all. -/
def spN : SearchFun := fun _ _ => .ok []

/-! ### Bounds for the similarity ratio -/

theorem extendMatch_le_left (a b : Str) : extendMatch a b ≤ a.length := by
  induction a generalizing b with
  | nil => simp [extendMatch]
  | cons x xs ih =>
    cases b with
    | nil => simp [extendMatch]
    | cons y ys =>
      simp only [extendMatch, List.length_cons]
      split
      · exact Nat.succ_le_succ (ih ys)
      · exact Nat.zero_le _

theorem extendMatch_le_right (a b : Str) : extendMatch a b ≤ b.length := by
  induction a generalizing b with
  | nil => simp [extendMatch]
  | cons x xs ih =>
    cases b with
    | nil => simp [extendMatch]
    | cons y ys =>
      simp only [extendMatch, List.length_cons]
      split
      · exact Nat.succ_le_succ (ih ys)
      · exact Nat.zero_le _

/-- The running best of the `find_longest_match` fold stays within bounds. -/
theorem flm_fold_bounds (a b : Str) (l : List (Nat × Nat)) (init : Nat × Nat × Nat)
    (hmem : ∀ p ∈ l, p.1 < a.length ∧ p.2 < b.length)
    (h1 : init.1 + init.2.2 ≤ a.length) (h2 : init.2.1 + init.2.2 ≤ b.length) :
    (l.foldl (flmStep a b) init).1 + (l.foldl (flmStep a b) init).2.2 ≤ a.length ∧
      (l.foldl (flmStep a b) init).2.1 + (l.foldl (flmStep a b) init).2.2 ≤ b.length := by
  induction l generalizing init with
  | nil => exact ⟨h1, h2⟩
  | cons p ps ih =>
    have hp := hmem p (List.mem_cons_self _ _)
    have hmem' : ∀ q ∈ ps, q.1 < a.length ∧ q.2 < b.length := fun q hq =>
      hmem q (List.mem_cons_of_mem _ hq)
    simp only [List.foldl_cons]
    refine ih _ hmem' ?_ ?_ <;>
      · simp only [flmStep]
        have hL := extendMatch_le_left (a.drop p.1) (b.drop p.2)
        have hR := extendMatch_le_right (a.drop p.1) (b.drop p.2)
        simp only [List.length_drop] at hL hR
        split <;> simp <;> omega

theorem idxPairs_mem {la lb : Nat} {p : Nat × Nat} (h : p ∈ idxPairs la lb) :
    p.1 < la ∧ p.2 < lb := by
  simp only [idxPairs, List.mem_flatMap, List.mem_map, List.mem_range] at h
  obtain ⟨i, hi, j, hj, rfl⟩ := h
  exact ⟨hi, hj⟩

theorem flm_bounds (a b : Str) :
    (flm a b).1 + (flm a b).2.2 ≤ a.length ∧
      (flm a b).2.1 + (flm a b).2.2 ≤ b.length := by
  unfold flm
  exact flm_fold_bounds a b _ (0, 0, 0) (fun p hp => idxPairs_mem hp)
    (by simp) (by simp)

theorem matchTotalF_le (fuel : Nat) (a b : Str) :
    matchTotalF fuel a b ≤ a.length ∧ matchTotalF fuel a b ≤ b.length := by
  induction fuel generalizing a b with
  | zero => simp [matchTotalF]
  | succ n ih =>
    simp only [matchTotalF]
    split
    · simp
    · have hb := flm_bounds a b
      have h1 := ih (a.take (flm a b).1) (b.take (flm a b).2.1)
      have h2 := ih (a.drop ((flm a b).1 + (flm a b).2.2))
        (b.drop ((flm a b).2.1 + (flm a b).2.2))
      simp only [List.length_take, List.length_drop] at h1 h2
      omega

theorem matchTotal_le_left (a b : Str) : matchTotal a b ≤ a.length :=
  (matchTotalF_le _ a b).1

theorem matchTotal_le_right (a b : Str) : matchTotal a b ≤ b.length :=
  (matchTotalF_le _ a b).2

theorem similarity_nonneg (a b : Str) : 0 ≤ similarity a b := by
  unfold similarity
  split
  · norm_num
  · positivity

theorem similarity_le_one (a b : Str) : similarity a b ≤ 1 := by
  unfold similarity
  split
  · norm_num
  · rename_i h
    have hL := matchTotal_le_left a b
    have hR := matchTotal_le_right a b
    have hpos : (0 : ℚ) < (a.length : ℚ) + (b.length : ℚ) := by
      have : 0 < a.length + b.length := Nat.pos_of_ne_zero h
      exact_mod_cast this
    rw [div_le_one hpos]
    have : 2 * matchTotal a b ≤ a.length + b.length := by omega
    exact_mod_cast this

theorem extendMatch_self (a : Str) : extendMatch a a = a.length := by
  induction a with
  | nil => simp [extendMatch]
  | cons x xs ih => simp [extendMatch, ih]

/-- Once the running best already has the maximal possible block size, the
`find_longest_match` fold never changes it. -/
theorem flm_fold_const (a b : Str) (l : List (Nat × Nat)) (best : Nat × Nat × Nat)
    (h : a.length ≤ best.2.2) : l.foldl (flmStep a b) best = best := by
  induction l with
  | nil => rfl
  | cons p ps ih =>
    have hk : extendMatch (a.drop p.1) (b.drop p.2) ≤ a.length := by
      have := extendMatch_le_left (a.drop p.1) (b.drop p.2)
      have := List.length_drop p.1 a
      omega
    simp only [List.foldl_cons, flmStep]
    rw [if_neg (by omega)]
    exact ih

theorem idxPairs_succ_cons (n m : Nat) :
    ∃ rest, idxPairs (n + 1) (m + 1) = (0, 0) :: rest := by
  refine ⟨((List.range m).map fun j => (0, j + 1)) ++
    (((List.range n).map Nat.succ).flatMap fun i =>
      (List.range (m + 1)).map fun j => (i, j)), ?_⟩
  simp [idxPairs, List.range_succ_eq_map, List.flatMap_cons, List.map_map,
    Function.comp]

theorem flm_self (a : Str) (h : a ≠ []) : flm a a = (0, 0, a.length) := by
  obtain ⟨n, hn⟩ : ∃ n, a.length = n + 1 := by
    cases a with
    | nil => exact absurd rfl h
    | cons x xs => exact ⟨xs.length, rfl⟩
  have hcons : ∃ rest, idxPairs a.length a.length = (0, 0) :: rest := by
    rw [hn]; exact idxPairs_succ_cons n n
  obtain ⟨rest, hrest⟩ := hcons
  unfold flm
  rw [hrest]
  simp only [List.foldl_cons, flmStep, List.drop_zero, extendMatch_self a]
  rw [if_pos (by omega)]
  exact flm_fold_const a a rest (0, 0, a.length) (le_refl _)

theorem idxPairs_zero_left (lb : Nat) : idxPairs 0 lb = [] := by
  simp [idxPairs]

theorem flm_nil : flm [] [] = (0, 0, 0) := by
  unfold flm
  simp [idxPairs_zero_left]

theorem matchTotalF_nil (fuel : Nat) : matchTotalF fuel [] [] = 0 := by
  cases fuel with
  | zero => rfl
  | succ n => simp [matchTotalF, flm_nil]

theorem matchTotal_self (a : Str) : matchTotal a a = a.length := by
  rcases eq_or_ne a [] with rfl | h
  · simp [matchTotal, matchTotalF_nil]
  · have hlen : a.length ≠ 0 := by simpa using h
    unfold matchTotal
    have : a.length + a.length + 1 = (a.length + a.length) + 1 := rfl
    rw [this]
    simp only [matchTotalF, flm_self a h]
    rw [if_neg hlen]
    simp [matchTotalF_nil, List.take_zero, List.drop_length, Nat.zero_add]

theorem similarity_self (a : Str) : similarity a a = 1 := by
  unfold similarity
  split
  · rfl
  · rename_i h
    rw [matchTotal_self]
    have hne : ((a.length : ℚ) + (a.length : ℚ)) ≠ 0 := by
      have : a.length ≠ 0 := by omega
      have : (0 : ℚ) < (a.length : ℚ) := by exact_mod_cast Nat.pos_of_ne_zero this
      linarith
    field_simp
    ring

/-- Evaluation helper: reduces a concrete similarity to rational arithmetic
once `matchTotal` and the lengths have been computed. -/
theorem similarity_eval (a b : Str) (m la lb : Nat) (hm : matchTotal a b = m)
    (hla : a.length = la) (hlb : b.length = lb) (h0 : la + lb ≠ 0) :
    similarity a b = 2 * (m : ℚ) / ((la : ℚ) + (lb : ℚ)) := by
  rw [similarity, hm, hla, hlb, if_neg h0]

/-- Evaluation helper: the score as similarity components plus popularity
minus the (conditional) karaoke penalty. -/
theorem sc_eval (c : CandidateTrack) (t a : Str) :
    sc c t a =
      similarity (low a) (low c.artist_name) * 40 +
        similarity (low t) (low c.name) * 30 + (c.popularity : ℚ) / 10 -
        (if hasKaraoke c then 50 else 0) := by
  rw [sc, score_track_match, baseScore]
  split <;> simp

theorem baseScore_nonneg (c : CandidateTrack) (t a : Str) : 0 ≤ baseScore c t a := by
  unfold baseScore
  have h1 := similarity_nonneg (low a) (low c.artist_name)
  have h2 := similarity_nonneg (low t) (low c.name)
  have h3 : (0 : ℚ) ≤ (c.popularity : ℚ) := Nat.cast_nonneg _
  positivity

theorem baseScore_le_80 (c : CandidateTrack) (t a : Str) (hpop : c.popularity ≤ 100) :
    baseScore c t a ≤ 80 := by
  unfold baseScore
  have h1 := similarity_le_one (low a) (low c.artist_name)
  have h1' := similarity_nonneg (low a) (low c.artist_name)
  have h2 := similarity_le_one (low t) (low c.name)
  have h2' := similarity_nonneg (low t) (low c.name)
  have h3 : (c.popularity : ℚ) ≤ 100 := by exact_mod_cast hpop
  nlinarith

theorem findBestAux_argmax (t a : Str) (cs : List CandidateTrack) :
    ∀ (bs : ℚ) (b : Option (Str × ℚ × Str × Str)),
      findBestAux t a bs b cs =
        match argmaxFirst t a cs with
        | none => b
        | some d =>
          if bs < sc d t a then some (d.id, sc d t a, d.name, d.artist_name)
          else b := by
  induction cs with
  | nil => intro bs b; rfl
  | cons c cs ih =>
    intro bs b
    have hr1 : (score_track_match c t a).1 = sc c t a := rfl
    have hr2 : (score_track_match c t a).2.1 = c.name := rfl
    have hr3 : (score_track_match c t a).2.2 = c.artist_name := rfl
    simp only [findBestAux, hr1, hr2, hr3, ih, argmaxFirst]
    rcases hrec : argmaxFirst t a cs with _ | d <;> dsimp only
    by_cases h1 : sc c t a < sc d t a <;> by_cases h2 : bs < sc c t a
    · simp [h1, h2, lt_trans h2 h1]
    · simp [h1, h2]
    · simp [h1, h2]
    · have hnd : ¬ bs < sc d t a := fun hd => h2 (lt_of_lt_of_le hd (not_lt.mp h1))
      simp [h1, h2, hnd]

theorem find_best_match_eq_selectSpec (cs : List CandidateTrack) (t a : Str) :
    find_best_match cs t a = selectSpec cs t a := by
  unfold find_best_match selectSpec
  rw [findBestAux_argmax]
  rcases argmaxFirst t a cs with _ | d
  · rfl
  · by_cases h : 0 < sc d t a <;> simp [h]

theorem argmaxFirst_ne_none (t a : Str) (c : CandidateTrack) (cs : List CandidateTrack) :
    argmaxFirst t a (c :: cs) ≠ none := by
  simp only [argmaxFirst]
  rcases argmaxFirst t a cs with _ | e
  · simp
  · dsimp only
    split <;> simp

theorem argmaxFirst_eq_none (t a : Str) (cs : List CandidateTrack)
    (h : argmaxFirst t a cs = none) : cs = [] := by
  cases cs with
  | nil => rfl
  | cons c cs => exact absurd h (argmaxFirst_ne_none t a c cs)

theorem argmaxFirst_mem (t a : Str) (cs : List CandidateTrack) :
    ∀ d, argmaxFirst t a cs = some d → d ∈ cs := by
  induction cs with
  | nil => intro d h; cases h
  | cons c cs ih =>
    intro d h
    simp only [argmaxFirst] at h
    cases hrec : argmaxFirst t a cs with
    | none =>
      rw [hrec] at h
      dsimp only at h
      cases h
      exact List.mem_cons_self _ _
    | some e =>
      rw [hrec] at h
      dsimp only at h
      by_cases hlt : sc c t a < sc e t a
      · rw [if_pos hlt] at h
        cases h
        exact List.mem_cons_of_mem _ (ih _ hrec)
      · rw [if_neg hlt] at h
        cases h
        exact List.mem_cons_self _ _

theorem argmaxFirst_is_max (t a : Str) (cs : List CandidateTrack) :
    ∀ d, argmaxFirst t a cs = some d → ∀ c ∈ cs, sc c t a ≤ sc d t a := by
  induction cs with
  | nil => intro d h; cases h
  | cons c cs ih =>
    intro d h c2 hc2
    simp only [argmaxFirst] at h
    cases hrec : argmaxFirst t a cs with
    | none =>
      rw [hrec] at h
      dsimp only at h
      cases h
      have hcs := argmaxFirst_eq_none t a cs hrec
      subst hcs
      rcases List.mem_cons.mp hc2 with rfl | hmem
      · exact le_refl _
      · cases hmem
    | some e =>
      rw [hrec] at h
      dsimp only at h
      by_cases hlt : sc c t a < sc e t a
      · rw [if_pos hlt] at h
        cases h
        rcases List.mem_cons.mp hc2 with rfl | hmem
        · exact le_of_lt hlt
        · exact ih _ hrec c2 hmem
      · rw [if_neg hlt] at h
        cases h
        rcases List.mem_cons.mp hc2 with rfl | hmem
        · exact le_refl _
        · exact le_trans (ih _ hrec c2 hmem) (not_lt.mp hlt)

theorem argmaxFirst_earliest (t a : Str) (cs : List CandidateTrack) :
    ∀ d, argmaxFirst t a cs = some d →
      ∃ l1 l2, cs = l1 ++ d :: l2 ∧ ∀ c ∈ l1, sc c t a < sc d t a := by
  induction cs with
  | nil => intro d h; cases h
  | cons c cs ih =>
    intro d h
    simp only [argmaxFirst] at h
    cases hrec : argmaxFirst t a cs with
    | none =>
      rw [hrec] at h
      dsimp only at h
      cases h
      exact ⟨[], cs, rfl, by simp⟩
    | some e =>
      rw [hrec] at h
      dsimp only at h
      by_cases hlt : sc c t a < sc e t a
      · rw [if_pos hlt] at h
        cases h
        obtain ⟨l1, l2, heq, hl⟩ := ih _ hrec
        refine ⟨c :: l1, l2, by rw [heq]; rfl, ?_⟩
        intro x hx
        rcases List.mem_cons.mp hx with rfl | hmem
        · exact hlt
        · exact hl x hmem
      · rw [if_neg hlt] at h
        cases h
        exact ⟨[], cs, rfl, by simp⟩

/-! ### Claim C1: selection rule of `_find_best_match` -/

/-- C1: `_find_best_match` returns the highest-scoring candidate only if its
score is strictly greater than 0, ties keep the earliest-seen maximal
candidate, and an empty sequence or an all-nonpositive sequence yields the
empty MatchResult. Stated as: equality with the spec-modelled selector,
the two empty cases, and the characterization of the selected candidate. -/
theorem C1_find_best_match_selection (cs : List CandidateTrack) (t a : Str) :
    find_best_match cs t a = selectSpec cs t a ∧
    (cs = [] → find_best_match cs t a = emptyMatch) ∧
    ((∀ c ∈ cs, sc c t a ≤ 0) → find_best_match cs t a = emptyMatch) ∧
    ∀ d, argmaxFirst t a cs = some d →
      (0 < sc d t a → find_best_match cs t a =
        ⟨some d.id, sc d t a, some d.name, some d.artist_name⟩) ∧
      d ∈ cs ∧ (∀ c ∈ cs, sc c t a ≤ sc d t a) ∧
      ∃ l1 l2, cs = l1 ++ d :: l2 ∧ ∀ c ∈ l1, sc c t a < sc d t a := by
  refine ⟨find_best_match_eq_selectSpec cs t a, ?_, ?_, ?_⟩
  · rintro rfl
    rfl
  · intro hle
    rw [find_best_match_eq_selectSpec]
    unfold selectSpec
    cases hrec : argmaxFirst t a cs with
    | none => rfl
    | some d =>
      have hd := hle d (argmaxFirst_mem t a cs d hrec)
      dsimp only
      rw [if_neg (not_lt.mpr hd)]
  · intro d hrec
    refine ⟨?_, argmaxFirst_mem t a cs d hrec, argmaxFirst_is_max t a cs d hrec,
      argmaxFirst_earliest t a cs d hrec⟩
    intro hpos
    rw [find_best_match_eq_selectSpec]
    unfold selectSpec
    rw [hrec]
    dsimp only
    rw [if_pos hpos]

/-- The concrete karaoke candidate scores exactly −50 against (`wTitle`,
`wArtist`). -/
theorem sc_wKar_eq : sc wKar wTitle wArtist = -50 := by
  rw [sc_eval]
  have h1 : similarity (low wArtist) (low wKar.artist_name) = 0 := by
    rw [similarity_eval _ _ 0 2 7 (by decide) (by decide) (by decide) (by decide)]
    norm_num
  have h2 : similarity (low wTitle) (low wKar.name) = 0 := by
    rw [similarity_eval _ _ 0 1 1 (by decide) (by decide) (by decide) (by decide)]
    norm_num
  have h3 : wKar.popularity = 0 := rfl
  rw [h1, h2, h3]
  norm_num [show hasKaraoke wKar = true from by decide]

/-- Witness for C1: a singleton all-nonpositive candidate list and the empty
list both select the empty MatchResult. -/
theorem C1_find_best_match_selection_witness :
    find_best_match [wKar] wTitle wArtist = emptyMatch ∧
    find_best_match [] wTitle wArtist = emptyMatch := by
  constructor
  · refine (C1_find_best_match_selection [wKar] wTitle wArtist).2.2.1 ?_
    intro c hc
    rw [List.mem_singleton] at hc
    subst hc
    rw [sc_wKar_eq]
    norm_num
  · exact (C1_find_best_match_selection [] wTitle wArtist).2.1 rfl

/-! ### Claim C2: the karaoke penalty -/

/-- C2: a candidate whose combined text contains a karaoke marker scores
exactly 50 less than the unpenalized computation (once, however many
markers match); without a marker the score is the unpenalized computation;
and the total is unclamped but lies in [−50, 80] for popularity ≤ 100. -/
theorem C2_karaoke_penalty (c : CandidateTrack) (t a : Str) :
    (hasKaraoke c = true → sc c t a = baseScore c t a - 50) ∧
    (hasKaraoke c = false → sc c t a = baseScore c t a) ∧
    (c.popularity ≤ 100 → -50 ≤ sc c t a ∧ sc c t a ≤ 80) := by
  refine ⟨?_, ?_, ?_⟩
  · intro h
    simp [sc, score_track_match, h]
  · intro h
    simp [sc, score_track_match, h]
  · intro hpop
    have h0 := baseScore_nonneg c t a
    have h80 := baseScore_le_80 c t a hpop
    unfold sc score_track_match
    dsimp only
    split <;> constructor <;> linarith

/-- Witness for C2 at the concrete karaoke candidate `wKar`. -/
theorem C2_karaoke_penalty_witness :
    sc wKar wTitle wArtist = baseScore wKar wTitle wArtist - 50 ∧
    (-50 ≤ sc wKar wTitle wArtist ∧ sc wKar wTitle wArtist ≤ 80) :=
  ⟨(C2_karaoke_penalty wKar wTitle wArtist).1 (by decide),
   (C2_karaoke_penalty wKar wTitle wArtist).2.2 (by decide)⟩

/-! ### Claim C3: exact-match scores -/

/-- Counterexample to C3 as stated: `cEx` matches title and artist exactly
(up to case) and has popularity 100, yet its karaoke album drags the score
to 30, far outside 80 ± 0.1. -/
theorem C3_counterexample :
    low cEx.name = low tEx ∧ low cEx.artist_name = low aEx ∧
    cEx.popularity = 100 ∧ ¬ |sc cEx tEx aEx - 80| ≤ 1 / 10 := by
  refine ⟨by decide, by decide, rfl, ?_⟩
  have hsc : sc cEx tEx aEx = 30 := by
    rw [sc_eval]
    have h1 : similarity (low aEx) (low cEx.artist_name) = 1 := by
      rw [show low cEx.artist_name = low aEx from by decide]
      exact similarity_self _
    have h2 : similarity (low tEx) (low cEx.name) = 1 := by
      rw [show low cEx.name = low tEx from by decide]
      exact similarity_self _
    have h3 : cEx.popularity = 100 := rfl
    rw [h1, h2, h3]
    norm_num [show hasKaraoke cEx = true from by decide]
  rw [hsc]
  norm_num

/-- C3 amended: for a candidate whose title and artist match the expected
title and artist up to case and whose combined text contains no karaoke
marker, popularity 100 gives a score within 0.1 of 80 and popularity 0 a
score within 0.1 of 70. -/
theorem C3_exact_match_score (c : CandidateTrack) (t a : Str)
    (hn : low c.name = low t) (ha : low c.artist_name = low a)
    (hk : hasKaraoke c = false) :
    (c.popularity = 100 → |sc c t a - 80| ≤ 1 / 10) ∧
    (c.popularity = 0 → |sc c t a - 70| ≤ 1 / 10) := by
  have hsa : similarity (low a) (low c.artist_name) = 1 := by
    rw [ha]; exact similarity_self _
  have hst : similarity (low t) (low c.name) = 1 := by
    rw [hn]; exact similarity_self _
  constructor <;> intro hp <;> rw [sc_eval, hsa, hst, hp, hk] <;> norm_num

/-- Witness for the amended C3 at concrete exact-match candidates with
popularity 100 and 0. -/
theorem C3_exact_match_score_witness :
    |sc c3a t3 a3 - 80| ≤ 1 / 10 ∧ |sc c3b t3 a3 - 70| ≤ 1 / 10 :=
  ⟨(C3_exact_match_score c3a t3 a3 (by decide) (by decide) (by decide)).1 rfl,
   (C3_exact_match_score c3b t3 a3 (by decide) (by decide) (by decide)).2 rfl⟩

/-! ### Claim C8: score monotonicity in dissimilarity -/

/-- The two C8 candidates score 50 and 370/7 respectively. -/
theorem sc_c8_eq : sc c8a t8 a8 = 50 ∧ sc c8b t8 a8 = 370 / 7 := by
  constructor
  · rw [sc_eval]
    have h1 : similarity (low a8) (low c8a.artist_name) = 1 / 2 := by
      rw [similarity_eval _ _ 1 2 2 (by decide) (by decide) (by decide) (by decide)]
      norm_num
    have h2 : similarity (low t8) (low c8a.name) = 1 := by
      rw [show low c8a.name = low t8 from rfl]
      exact similarity_self _
    have h3 : c8a.popularity = 0 := rfl
    rw [h1, h2, h3]
    norm_num [show hasKaraoke c8a = false from by decide]
  · rw [sc_eval]
    have h1 : similarity (low a8) (low c8b.artist_name) = 4 / 7 := by
      rw [similarity_eval _ _ 2 2 5 (by decide) (by decide) (by decide) (by decide)]
      norm_num
    have h2 : similarity (low t8) (low c8b.name) = 1 := by
      rw [show low c8b.name = low t8 from rfl]
      exact similarity_self _
    have h3 : c8b.popularity = 0 := rfl
    rw [h1, h2, h3]
    norm_num [show hasKaraoke c8b = false from by decide]

/-- Counterexample to C8 as stated: `c8a` and `c8b` agree on every field
other than the artist; moving from `c8a`'s artist to `c8b`'s artist
strictly increases the Levenshtein edit distance from the expected artist
(2 to 3) yet strictly increases the score (50 to 370/7 ≈ 52.86). -/
theorem C8_counterexample :
    c8a.name = c8b.name ∧ c8a.album_name = c8b.album_name ∧
    c8a.popularity = c8b.popularity ∧
    editDist a8 c8a.artist_name < editDist a8 c8b.artist_name ∧
    sc c8a t8 a8 < sc c8b t8 a8 := by
  refine ⟨rfl, rfl, rfl, by decide, ?_⟩
  rw [sc_c8_eq.1, sc_c8_eq.2]
  norm_num

/-- C8 amended: holding popularity and the karaoke indicator fixed, a
candidate whose artist and title similarity ratios do not exceed another's
never outscores it: the score is monotone in the fuzzy similarity ratio
(not in Levenshtein edit distance). -/
theorem C8_score_monotone (c1 c2 : CandidateTrack) (t a : Str)
    (hpop : c2.popularity = c1.popularity)
    (hk : hasKaraoke c2 = hasKaraoke c1)
    (hsa : similarity (low a) (low c2.artist_name) ≤
      similarity (low a) (low c1.artist_name))
    (hst : similarity (low t) (low c2.name) ≤ similarity (low t) (low c1.name)) :
    sc c2 t a ≤ sc c1 t a := by
  rw [sc_eval, sc_eval, hk, hpop]
  have h40 : similarity (low a) (low c2.artist_name) * 40 ≤
      similarity (low a) (low c1.artist_name) * 40 := by linarith
  have h30 : similarity (low t) (low c2.name) * 30 ≤
      similarity (low t) (low c1.name) * 30 := by linarith
  linarith

/-- Witness for the amended C8: `c8a`'s artist similarity (1/2) does not
exceed `c8b`'s (4/7), so `c8a` does not outscore `c8b`. -/
theorem C8_score_monotone_witness : sc c8a t8 a8 ≤ sc c8b t8 a8 := by
  refine C8_score_monotone c8b c8a t8 a8 rfl (by decide) ?_ ?_
  · rw [similarity_eval (low a8) (low c8a.artist_name) 1 2 2
      (by decide) (by decide) (by decide) (by decide),
      similarity_eval (low a8) (low c8b.artist_name) 2 2 5
      (by decide) (by decide) (by decide) (by decide)]
    norm_num
  · rw [show low c8a.name = low c8b.name from rfl]

/-! ### Claim C4/C5: the two-pass retrieval with dedup -/

theorem foldl_dedupStep (l : List CandidateTrack) :
    ∀ acc : List CandidateTrack × List Str,
      l.foldl dedupStep acc =
        (acc.1 ++ dedupSeen acc.2 l, acc.2 ++ (dedupSeen acc.2 l).map (·.id)) := by
  induction l with
  | nil => intro acc; simp [dedupSeen]
  | cons c cs ih =>
    intro acc
    simp only [List.foldl_cons, dedupStep, dedupSeen]
    by_cases h : c.id ∈ acc.2
    · rw [if_pos h, if_pos h, ih]
    · rw [if_neg h, if_neg h, ih]
      simp [List.append_assoc]

theorem dedupSeen_eq_dedupFirst (l : List CandidateTrack) :
    ∀ seen : List Str,
      dedupSeen seen l = dedupFirst (l.filter fun d => decide (d.id ∉ seen)) := by
  induction l with
  | nil => intro seen; simp [dedupSeen, dedupFirst]
  | cons c cs ih =>
    intro seen
    simp only [dedupSeen]
    by_cases h : c.id ∈ seen
    · rw [if_pos h, ih seen]
      congr 1
      rw [List.filter_cons_of_neg (by simp [h])]
    · rw [if_neg h, ih (seen ++ [c.id])]
      rw [List.filter_cons_of_pos (by simp [h])]
      simp only [dedupFirst, List.filter_filter]
      congr 1
      congr 1
      apply List.filter_congr
      intro d _
      by_cases h1 : d.id = c.id <;> by_cases h2 : d.id ∈ seen <;>
        simp [h1, h2, List.mem_append]

theorem dedupFirst_sublist (l : List CandidateTrack) : List.Sublist (dedupFirst l) l := by
  induction l using dedupFirst.induct with
  | case1 => simp [dedupFirst]
  | case2 c cs ih =>
    simp only [dedupFirst]
    exact List.cons_sublist_cons.mpr (ih.trans (List.filter_sublist cs))

theorem dedupFirst_id_nodup (l : List CandidateTrack) :
    ((dedupFirst l).map (·.id)).Nodup := by
  induction l using dedupFirst.induct with
  | case1 => simp [dedupFirst]
  | case2 c cs ih =>
    simp only [dedupFirst, List.map_cons, List.nodup_cons]
    refine ⟨?_, ih⟩
    intro hmem
    simp only [List.mem_map] at hmem
    obtain ⟨d, hd, hid⟩ := hmem
    have hfil : d ∈ cs.filter fun x => decide (x.id ≠ c.id) :=
      (dedupFirst_sublist _).subset hd
    rw [List.mem_filter] at hfil
    have := hfil.2
    simp only [ne_eq, decide_not, Bool.not_eq_true', decide_eq_false_iff_not] at this
    exact this hid

theorem dedupFirst_complete (l : List CandidateTrack) :
    ∀ c ∈ l, c.id ∈ (dedupFirst l).map (·.id) := by
  induction l using dedupFirst.induct with
  | case1 => intro c hc; cases hc
  | case2 c cs ih =>
    intro d hd
    simp only [dedupFirst, List.map_cons, List.mem_cons]
    rcases List.mem_cons.mp hd with rfl | hmem
    · exact Or.inl rfl
    · by_cases hid : d.id = c.id
      · exact Or.inl hid
      · refine Or.inr (ih d ?_)
        rw [List.mem_filter]
        exact ⟨hmem, by simp [hid]⟩

theorem collectCandidates_eq (sp : SearchFun) (title artist : Str) :
    collectCandidates sp title artist =
      dedupFirst (execute_search sp (fieldQuery title artist) ++
        execute_search sp (freeQuery title artist)) := by
  unfold collectCandidates queriesFor
  rw [show ([fieldQuery title artist, freeQuery title artist].flatMap
      (execute_search sp)) =
      execute_search sp (fieldQuery title artist) ++
        execute_search sp (freeQuery title artist) from by simp]
  rw [foldl_dedupStep]
  dsimp only
  rw [List.nil_append, dedupSeen_eq_dedupFirst]
  congr 1
  apply List.filter_eq_self.mpr
  intro d _
  simp

/-! ### Claims C6/C7/C10: batch playlist population -/

theorem chunksOf_nil {α : Type} (n : Nat) : chunksOf n ([] : List α) = [] := by
  rw [chunksOf]
  simp

theorem chunksOf_eq_cons {α : Type} (n : Nat) (l : List α) (hn : n ≠ 0) (hl : l ≠ []) :
    chunksOf n l = l.take n :: chunksOf n (l.drop n) := by
  rw [chunksOf]
  rw [dif_neg (by simp [List.isEmpty_iff, hl, hn])]

theorem chunksOf_length_sum {α : Type} (n : Nat) (hn : n ≠ 0) (l : List α) :
    ((chunksOf n l).map List.length).sum = l.length := by
  induction l using chunksOf.induct n with
  | case1 l h =>
    rcases h with h | h
    · rw [List.isEmpty_iff] at h
      subst h
      simp [chunksOf_nil]
    · exact absurd h hn
  | case2 l h ih =>
    rw [not_or, List.isEmpty_iff] at h
    rw [chunksOf_eq_cons n l hn h.1]
    simp only [List.map_cons, List.sum_cons, ih]
    have h0 : l.length ≠ 0 := fun h0 => h.1 (List.eq_nil_of_length_eq_zero h0)
    simp only [List.length_take, List.length_drop]
    omega

theorem addLoop_all_ok (add : List Str → Except ApiErr Unit) (bs : List (List Str))
    (h : ∀ b ∈ bs, add b = .ok ()) :
    addLoop add bs = ⟨(bs.map List.length).sum, bs, none⟩ := by
  induction bs with
  | nil => rfl
  | cons b bs ih =>
    have hb := h b (List.mem_cons_self _ _)
    have hrest : ∀ b2 ∈ bs, add b2 = .ok () := fun b2 hb2 =>
      h b2 (List.mem_cons_of_mem _ hb2)
    simp [addLoop, hb, ih hrest]

theorem addLoop_added_le (add : List Str → Except ApiErr Unit) (bs : List (List Str)) :
    (addLoop add bs).tracks_added ≤ (bs.map List.length).sum := by
  induction bs with
  | nil => simp [addLoop]
  | cons b bs ih =>
    rcases hab : add b with e | u
    · rcases e with e | m <;> simp [addLoop, hab]
    · simp only [addLoop, hab, List.map_cons, List.sum_cons]
      omega

/-- C6: 250 track ids are partitioned into exactly the three consecutive
batches of sizes 100, 100, 50; with an all-successful add capability all
three are issued in order (tracks_added 250); when the second batch raises
a `SpotifyException`, the third is never attempted, `tracks_added` is 100,
and `create_playlist` still returns the playlist URL. -/
theorem C6_batch_partition (ids : List Str) (add : List Str → Except ApiErr Unit)
    (e : SpotErr) (hlen : ids.length = 250)
    (h1 : add (ids.take 100) = .ok ())
    (h2 : add ((ids.drop 100).take 100) = .error (.spot e)) :
    chunksOf 100 ids = [ids.take 100, (ids.drop 100).take 100, ids.drop 200] ∧
    (chunksOf 100 ids).map List.length = [100, 100, 50] ∧
    add_tracks_in_batches add ids =
      ⟨100, [ids.take 100, (ids.drop 100).take 100], none⟩ ∧
    (∀ (sp : Session) (uid : Str) (pl : Playlist) (nm : Str) (pub : Bool) (dsc : Str),
      sp.current_user = .ok uid →
      sp.user_playlist_create uid nm pub dsc = .ok pl →
      sp.playlist_add_items pl.id = add →
      create_playlist sp ids nm pub dsc = some pl.url) ∧
    ∀ add2 : List Str → Except ApiErr Unit,
      (∀ b ∈ chunksOf 100 ids, add2 b = .ok ()) →
      (add_tracks_in_batches add2 ids).attempted = chunksOf 100 ids ∧
      (add_tracks_in_batches add2 ids).tracks_added = 250 := by
  have hne : ids ≠ [] := by
    intro h
    rw [h] at hlen
    simp at hlen
  have hd1 : ids.drop 100 ≠ [] := by
    intro h
    have h' := congrArg List.length h
    simp only [List.length_drop, List.length_nil, hlen] at h'
    omega
  have hd2 : ids.drop 200 ≠ [] := by
    intro h
    have h' := congrArg List.length h
    simp only [List.length_drop, List.length_nil, hlen] at h'
    omega
  have hdd : (ids.drop 100).drop 100 = ids.drop 200 := by
    rw [List.drop_drop]
  have htk : (ids.drop 200).take 100 = ids.drop 200 := by
    apply List.take_of_length_le
    simp only [List.length_drop, hlen]
    omega
  have hdn : (ids.drop 200).drop 100 = [] := by
    rw [List.drop_drop]
    apply List.drop_eq_nil_of_le
    omega
  have hch : chunksOf 100 ids =
      [ids.take 100, (ids.drop 100).take 100, ids.drop 200] := by
    rw [chunksOf_eq_cons 100 ids (by norm_num) hne,
      chunksOf_eq_cons 100 _ (by norm_num) hd1, hdd,
      chunksOf_eq_cons 100 _ (by norm_num) hd2, htk, hdn, chunksOf_nil]
  have ht100 : (ids.take 100).length = 100 := by
    rw [List.length_take, hlen]
    exact min_eq_left (by norm_num)
  have hout : add_tracks_in_batches add ids =
      ⟨100, [ids.take 100, (ids.drop 100).take 100], none⟩ := by
    rw [add_tracks_in_batches, hch]
    simp only [addLoop]
    rw [h1]
    dsimp only
    rw [h2]
    dsimp only
    simp [ht100]
  refine ⟨hch, ?_, hout, ?_, ?_⟩
  · rw [hch]
    simp only [List.map_cons, List.map_nil, List.length_take, List.length_drop, hlen]
    norm_num
  · intro sp uid pl nm pub dsc hu hc ha
    unfold create_playlist
    rw [hu]
    dsimp only
    rw [hc]
    dsimp only
    rw [ha, hout]
  · intro add2 hok
    rw [add_tracks_in_batches, addLoop_all_ok add2 _ hok]
    refine ⟨rfl, ?_⟩
    dsimp only
    rw [chunksOf_length_sum 100 (by norm_num) ids, hlen]

set_option maxRecDepth 8000 in
/-- Witness for C6 at 250 concrete ids with a second-batch service error. -/
theorem C6_batch_partition_witness :
    (chunksOf 100 ids250).map List.length = [100, 100, 50] ∧
    (add_tracks_in_batches add6 ids250).tracks_added = 100 ∧
    create_playlist s6 ids250 "n".toList true "d".toList = some pl6.url := by
  have h1 : add6 (ids250.take 100) = .ok () := by
    simp only [add6]
    rw [if_neg (by decide)]
  have h2 : add6 ((ids250.drop 100).take 100) = .error (.spot ⟨500, "x".toList⟩) := by
    simp only [add6]
    rw [if_pos (by decide)]
  have h := C6_batch_partition ids250 add6 ⟨500, "x".toList⟩ (by decide) h1 h2
  exact ⟨h.2.1, by rw [h.2.2.1], h.2.2.2.1 s6 "u".toList pl6 "n".toList true
    "d".toList rfl rfl rfl⟩

/-- C7: `tracks_added` never exceeds the number of requested ids, creation
failure yields no URL, and a completed (or service-error-truncated) batch
loop after successful creation yields the URL. -/
theorem C7_outcome_invariant (sp : Session) (ids : List Str) (nm : Str)
    (pub : Bool) (dsc : Str) :
    (∀ add : List Str → Except ApiErr Unit,
      (add_tracks_in_batches add ids).tracks_added ≤ ids.length) ∧
    (∀ e, sp.current_user = .error e → create_playlist sp ids nm pub dsc = none) ∧
    (∀ uid e, sp.current_user = .ok uid →
      sp.user_playlist_create uid nm pub dsc = .error e →
      create_playlist sp ids nm pub dsc = none) ∧
    (∀ uid pl, sp.current_user = .ok uid →
      sp.user_playlist_create uid nm pub dsc = .ok pl →
      (add_tracks_in_batches (sp.playlist_add_items pl.id) ids).propagated = none →
      create_playlist sp ids nm pub dsc = some pl.url) := by
  refine ⟨?_, ?_, ?_, ?_⟩
  · intro add
    calc (add_tracks_in_batches add ids).tracks_added
        ≤ ((chunksOf 100 ids).map List.length).sum := addLoop_added_le add _
      _ = ids.length := chunksOf_length_sum 100 (by norm_num) ids
  · intro e h
    unfold create_playlist
    rw [h]
  · intro uid e hu hc
    unfold create_playlist
    rw [hu]
    dsimp only
    rw [hc]
  · intro uid pl hu hc hp
    unfold create_playlist
    rw [hu]
    dsimp only
    rw [hc]
    dsimp only
    rw [hp]

/-- Witness for C7: the bound at the concrete 250-id input, and the
no-URL outcome for a session whose `current_user` call fails. -/
theorem C7_outcome_invariant_witness :
    (add_tracks_in_batches add6 ids250).tracks_added ≤ ids250.length ∧
    create_playlist s7 ids250 "n".toList true "d".toList = none :=
  ⟨(C7_outcome_invariant s7 ids250 "n".toList true "d".toList).1 add6,
   (C7_outcome_invariant s7 ids250 "n".toList true "d".toList).2.1 _ rfl⟩

/-- C10: the batch loop catches only `SpotifyException`; any other
exception escapes, reaches `create_playlist`'s outer handler, and the
result is `None` (no URL) even though the playlist was already created.
A `SpotifyException` instead stops the loop quietly. -/
theorem C10_other_exception_drops_url (sp : Session) (ids : List Str) (nm : Str)
    (pub : Bool) (dsc : Str) (uid : Str) (pl : Playlist)
    (hu : sp.current_user = .ok uid)
    (hc : sp.user_playlist_create uid nm pub dsc = .ok pl) :
    (∀ m, (add_tracks_in_batches (sp.playlist_add_items pl.id) ids).propagated = some m →
      create_playlist sp ids nm pub dsc = none) ∧
    (∀ (add : List Str → Except ApiErr Unit) (b : List Str) (bs : List (List Str))
      (m : Str), add b = .error (.other m) → addLoop add (b :: bs) = ⟨0, [b], some m⟩) ∧
    (∀ (add : List Str → Except ApiErr Unit) (b : List Str) (bs : List (List Str))
      (e : SpotErr), add b = .error (.spot e) → addLoop add (b :: bs) = ⟨0, [b], none⟩) := by
  refine ⟨?_, ?_, ?_⟩
  · intro m hp
    unfold create_playlist
    rw [hu]
    dsimp only
    rw [hc]
    dsimp only
    rw [hp]
  · intro add b bs m h
    simp [addLoop, h]
  · intro add b bs e h
    simp [addLoop, h]

/-- Witness for C10: a concrete session whose batch-add raises a
non-service error loses the URL. -/
theorem C10_other_exception_drops_url_witness :
    create_playlist s10 ids10 "n".toList true "d".toList = none := by
  refine (C10_other_exception_drops_url s10 ids10 "n".toList true "d".toList
    "u".toList pl6 rfl rfl).1 "boom".toList ?_
  rw [add_tracks_in_batches, chunksOf_eq_cons 100 ids10 (by norm_num) (by decide),
    show ids10.drop 100 = [] from by decide, chunksOf_nil]
  simp [addLoop, addOther, s10]

/-- C4: each retrieval issues the field-scoped query and then the free-text
query (each with limit 10, via `execute_search`), and the candidate list is
the concatenation of the two result lists deduplicated by id, keeping the
first occurrence: ids are pairwise distinct, order is first-seen (a sublist
of the concatenation), and every id that occurs survives. -/
theorem C4_retrieval_dedup (sp : SearchFun) (title artist : Str) :
    collectCandidates sp title artist =
      dedupFirst (execute_search sp (fieldQuery title artist) ++
        execute_search sp (freeQuery title artist)) ∧
    ((collectCandidates sp title artist).map (·.id)).Nodup ∧
    List.Sublist (collectCandidates sp title artist)
      (execute_search sp (fieldQuery title artist) ++
        execute_search sp (freeQuery title artist)) ∧
    ∀ c ∈ execute_search sp (fieldQuery title artist) ++
        execute_search sp (freeQuery title artist),
      c.id ∈ (collectCandidates sp title artist).map (·.id) := by
  refine ⟨collectCandidates_eq sp title artist, ?_, ?_, ?_⟩ <;>
    rw [collectCandidates_eq]
  · exact dedupFirst_id_nodup _
  · exact dedupFirst_sublist _
  · exact dedupFirst_complete _

/-- C5: each query is fault-isolated: a failing query contributes zero
candidates and the other query's results are still used; two failing (or
two empty) queries give the empty candidate list; and a failing first
query with a non-empty second result gives a non-empty candidate list. -/
theorem C5_query_fault_isolation (sp : SearchFun) (title artist : Str) :
    (∀ e, sp (fieldQuery title artist) 10 = .error e →
      collectCandidates sp title artist =
        dedupFirst (execute_search sp (freeQuery title artist))) ∧
    (∀ e1 e2, sp (fieldQuery title artist) 10 = .error e1 →
      sp (freeQuery title artist) 10 = .error e2 →
      collectCandidates sp title artist = []) ∧
    (sp (fieldQuery title artist) 10 = .ok [] →
      sp (freeQuery title artist) 10 = .ok [] →
      collectCandidates sp title artist = []) ∧
    (∀ e, sp (fieldQuery title artist) 10 = .error e →
      execute_search sp (freeQuery title artist) ≠ [] →
      collectCandidates sp title artist ≠ []) := by
  have hex : ∀ (q : Str) (e : ApiErr), sp q 10 = .error e → execute_search sp q = [] := by
    intro q e h
    unfold execute_search
    rw [h]
  have hok : ∀ q : Str, sp q 10 = .ok [] → execute_search sp q = [] := by
    intro q h
    unfold execute_search
    rw [h]
  refine ⟨?_, ?_, ?_, ?_⟩
  · intro e h
    rw [collectCandidates_eq, hex _ e h, List.nil_append]
  · intro e1 e2 h1 h2
    rw [collectCandidates_eq, hex _ e1 h1, hex _ e2 h2]
    simp [dedupFirst]
  · intro h1 h2
    rw [collectCandidates_eq, hok _ h1, hok _ h2]
    simp [dedupFirst]
  · intro e h hne
    rw [collectCandidates_eq, hex _ e h, List.nil_append]
    cases hfq : execute_search sp (freeQuery title artist) with
    | nil => exact absurd hfq hne
    | cons x xs => simp [dedupFirst]

/-- Witness for C5: with `sp5` the field-scoped query errors and retrieval
still returns the (non-empty, deduplicated) free-text results. -/
theorem C5_query_fault_isolation_witness :
    collectCandidates sp5 qT qA =
      dedupFirst (execute_search sp5 (freeQuery qT qA)) ∧
    collectCandidates sp5 qT qA ≠ [] := by
  have herr : sp5 (fieldQuery qT qA) 10 = .error (.spot ⟨500, "boom".toList⟩) := by
    simp [sp5]
  have hfree : execute_search sp5 (freeQuery qT qA) ≠ [] := by
    unfold execute_search
    simp only [sp5]
    rw [if_neg (by decide)]
    simp
  exact ⟨(C5_query_fault_isolation sp5 qT qA).1 _ herr,
    (C5_query_fault_isolation sp5 qT qA).2.2.2 _ herr hfree⟩

/-! ### Claim C9: the orchestrator loop -/

theorem processTracks_eq (sp : SearchFun) (ts : List (Str × Str)) :
    processTracks sp ts =
      ((ts.filter (succQ sp)).map (idOfQ sp), ts.filter fun q => ! succQ sp q) := by
  suffices h : ∀ acc : List Str × List (Str × Str),
      ts.foldl (mainStep sp) acc =
        (acc.1 ++ (ts.filter (succQ sp)).map (idOfQ sp),
         acc.2 ++ ts.filter fun q => ! succQ sp q) by
    simpa [processTracks] using h ([], [])
  induction ts with
  | nil =>
    intro acc
    simp
  | cons q qs ih =>
    intro acc
    simp only [List.foldl_cons, mainStep]
    by_cases hq : succQ sp q
    · have hq' : truthyId (search_track sp q.1 q.2).track_id = true := hq
      rw [if_pos hq', ih]
      rw [List.filter_cons_of_pos hq, List.filter_cons_of_neg (by simp [hq])]
      simp [idOfQ, List.append_assoc]
    · have hq' : ¬ truthyId (search_track sp q.1 q.2).track_id = true := hq
      rw [if_neg hq', ih]
      rw [List.filter_cons_of_neg hq, List.filter_cons_of_pos (by simp [hq])]
      simp [List.append_assoc]

theorem filter_partition_length (sp : SearchFun) (ts : List (Str × Str)) :
    (ts.filter (succQ sp)).length + (ts.filter fun q => ! succQ sp q).length =
      ts.length := by
  induction ts with
  | nil => rfl
  | cons q qs ih =>
    by_cases h : succQ sp q <;> simp [List.filter_cons, h] <;> omega

/-- C9 amended: the loop of `main` processes queries in input order and
partitions them: found ids are exactly the ids of the queries whose
selected track id is truthy (non-None and non-empty), the not-found list
is exactly the remaining queries, both in input order, every query landing
in exactly one list; in particular a query with an empty MatchResult is
recorded as not found. (As stated the claim fails only when the selector
returns an empty-string id: the match is non-empty yet the query is
recorded as not found.) -/
theorem C9_orchestrator_partition (sp : SearchFun) (ts : List (Str × Str)) :
    processTracks sp ts =
      ((ts.filter (succQ sp)).map (idOfQ sp), ts.filter fun q => ! succQ sp q) ∧
    (processTracks sp ts).1.length + (processTracks sp ts).2.length = ts.length ∧
    ∀ q ∈ ts, search_track sp q.1 q.2 = emptyMatch →
      q ∈ (processTracks sp ts).2 := by
  refine ⟨processTracks_eq sp ts, ?_, ?_⟩
  · rw [processTracks_eq]
    simp only [List.length_map]
    exact filter_partition_length sp ts
  · intro q hq hempty
    rw [processTracks_eq]
    dsimp only
    rw [List.mem_filter]
    refine ⟨hq, ?_⟩
    have : succQ sp q = false := by
      unfold succQ
      rw [hempty]
      rfl
    simp [this]

/-- Witness for the amended C9: with an oracle returning no candidates, the
query lands in the not-found list. -/
theorem C9_orchestrator_partition_witness :
    (qT, qA) ∈ (processTracks spN [(qT, qA)]).2 :=
  (C9_orchestrator_partition spN [(qT, qA)]).2.2 (qT, qA)
    (List.mem_singleton_self _) rfl

/-- The empty-id candidate scores exactly 80 against ("t", "a"). -/
theorem sc_cE_eq : sc cE qT qA = 80 := by
  rw [sc_eval]
  have h1 : similarity (low qA) (low cE.artist_name) = 1 := by
    rw [show low cE.artist_name = low qA from rfl]
    exact similarity_self _
  have h2 : similarity (low qT) (low cE.name) = 1 := by
    rw [show low cE.name = low qT from rfl]
    exact similarity_self _
  have h3 : cE.popularity = 100 := rfl
  rw [h1, h2, h3]
  norm_num [show hasKaraoke cE = false from by decide]

/-- Counterexample to C9 as stated: against the oracle `spE`, the selector
returns a non-empty MatchResult whose track id is the empty string (a
perfect match of score 80), yet `main`'s truthiness test sends the query
to the not-found list and the found-list stays empty. -/
theorem C9_counterexample :
    search_track spE qT qA ≠ emptyMatch ∧
    (search_track spE qT qA).track_id = some [] ∧
    processTracks spE [(qT, qA)] = ([], [(qT, qA)]) := by
  have hcollect : collectCandidates spE qT qA = [cE] := by
    rw [collectCandidates_eq]
    rw [show execute_search spE (fieldQuery qT qA) = [cE] from rfl,
      show execute_search spE (freeQuery qT qA) = [cE] from rfl]
    simp [dedupFirst]
  have hfb : find_best_match [cE] qT qA =
      ⟨some cE.id, sc cE qT qA, some cE.name, some cE.artist_name⟩ := by
    rw [find_best_match_eq_selectSpec]
    unfold selectSpec
    rw [show argmaxFirst qT qA [cE] = some cE from rfl]
    dsimp only
    rw [if_pos (by rw [sc_cE_eq]; norm_num)]
  have hst : search_track spE qT qA =
      ⟨some [], 80, some cE.name, some cE.artist_name⟩ := by
    unfold search_track
    rw [hcollect]
    dsimp only
    rw [hfb, sc_cE_eq]
    rfl
  have hsucc : succQ spE (qT, qA) = false := by
    unfold succQ
    rw [hst]
    rfl
  refine ⟨?_, ?_, ?_⟩
  · rw [hst]
    intro h
    cases h
  · rw [hst]
  · rw [processTracks_eq]
    simp [hsucc]

/-- Witness for C4: with the oracle `spE` both queries return the same
candidate; the collected list has pairwise-distinct ids and the duplicated
id survives exactly once. -/
theorem C4_retrieval_dedup_witness :
    ((collectCandidates spE qT qA).map (·.id)).Nodup ∧
    cE.id ∈ (collectCandidates spE qT qA).map (·.id) := by
  refine ⟨(C4_retrieval_dedup spE qT qA).2.1, ?_⟩
  refine (C4_retrieval_dedup spE qT qA).2.2.2 cE ?_
  rw [show execute_search spE (fieldQuery qT qA) = [cE] from rfl]
  simp
